import Mathlib

/-!
Verification of the agent-session protocol adapter of the
`codex-telegram-bot` repository.

The Python modules under `src/tgcodex/` are shallowly embedded:
JSON values become the inductive type `JVal`, Python dicts become
association lists, code that can raise returns `Except String α`,
and async state becomes explicit state passing.
-/

set_option autoImplicit false

namespace Tgcodex

/-- A decoded JSON value, as produced by Python `json.loads`.
Python `int` and `float` are kept distinct (the source dispatches
on `isinstance(x, int)` vs `float`); `bool` is separate but the
Python-semantics helpers below treat it as an `int` subtype, exactly
as `isinstance(True, int)` holds in Python. -/
inductive JVal where
  | null
  | bool (b : Bool)
  | int (n : Int)
  | float (q : Rat)
  | str (s : String)
  | arr (xs : List JVal)
  | obj (kvs : List (String × JVal))

/-- A decoded JSON object (Python `dict`): keys are unique by
construction of `json.loads` (later duplicates overwrite earlier ones). -/
abbrev JObj := List (String × JVal)

/-- Named quote character, `0x27`. -/
def squote : Char := Char.ofNat 39

/-- Named double-quote character, `0x22`. -/
def dquote : Char := Char.ofNat 34

/-- Named backslash character, `0x5c`. -/
def bslash : Char := Char.ofNat 92

namespace JVal

/-- Python `d.get(k)` for a dict: `None` (= JSON `null`) when the key
is absent. Keys are unique, so first match equals dict lookup. -/
def get (o : JObj) (k : String) : JVal :=
  match o.find? (fun p => p.1 == k) with
  | some p => p.2
  | none => null

/-- Python truthiness of a JSON-derived value (`bool(x)`). -/
def truthy : JVal → Bool
  | null => false
  | bool b => b
  | int n => n != 0
  | float q => q != 0
  | str s => s ≠ ""
  | arr xs => !xs.isEmpty
  | obj kvs => !kvs.isEmpty

/-- Python `a or b` on JSON-derived values. -/
def orElse (a b : JVal) : JVal := if a.truthy then a else b

/-- Python `isinstance(v, str)`. -/
def isStr : JVal → Bool
  | str _ => true
  | _ => false

/-- Python `isinstance(v, dict)`. -/
def isDict : JVal → Bool
  | obj _ => true
  | _ => false

/-- Python `isinstance(v, list)`. -/
def isList : JVal → Bool
  | arr _ => true
  | _ => false

/-- Python `isinstance(v, bool)`. -/
def isBool : JVal → Bool
  | bool _ => true
  | _ => false

/-- The string payload, when `isinstance(v, str)`. -/
def asStr? : JVal → Option String
  | str s => some s
  | _ => none

/-- The dict payload, when `isinstance(v, dict)`. -/
def asObj? : JVal → Option JObj
  | obj kvs => some kvs
  | _ => none

/-- The list payload, when `isinstance(v, list)`. -/
def asArr? : JVal → Option (List JVal)
  | arr xs => some xs
  | _ => none

/-- Python `isinstance(v, int)` is also true for `bool` (bools are
ints); the corresponding integer value. -/
def asInt? : JVal → Option Int
  | int n => some n
  | bool b => some (if b then 1 else 0)
  | _ => none

/-- Python `isinstance(v, (int, float)) and not isinstance(v, bool)`, as a
rational (`float(v)`). -/
def asNum? : JVal → Option Rat
  | int n => some (n : Rat)
  | float q => some q
  | _ => none

/-- Model of Python `str(v)` on JSON-derived values. The container and
float renderings are best-effort (no claim depends on them); the
`str`, `int`, `bool` and `None` cases are exact. -/
def pyStr : JVal → String
  | null => "None"
  | bool b => if b then "True" else "False"
  | int n => toString n
  | float q => toString q
  | str s => s
  | arr _ => "[...]"
  | obj _ => "\x7b...\x7d"

end JVal

/-- Python `sep.join(xs)` over JSON-derived values: raises `TypeError`
unless every element is a `str`. -/
def pyJoin (sep : String) (xs : List JVal) : Except String String :=
  match xs with
  | [] => .ok ""
  | v :: rest =>
    match v with
    | JVal.str s => (pyJoin sep rest).map (fun r => if rest.isEmpty then s else s ++ sep ++ r)
    | _ => .error "TypeError"

/-- Python `v.get(k)` when `v` may not be a dict: `AttributeError` otherwise.
Used where the source calls `.get` on an unchecked value. -/
def pyDictGet (v : JVal) (k : String) : Except String JVal :=
  match v with
  | JVal.obj kvs => .ok (JVal.get kvs k)
  | _ => .error "AttributeError"

/-! ## `tgcodex/util/shlex_tokens.py` and the `shlex` model -/

/-- Model of `shlex.whitespace`: characters separating tokens. -/
def shWs (c : Char) : Bool :=
  c = ' ' || c = '\t' || c = '\r' || c = '\n'

/-- Lexer mode of the POSIX `shlex` state machine: outside quotes,
inside single quotes, or inside double quotes. -/
inductive ShMode where
  | norm
  | single
  | double
  deriving DecidableEq

/-- Model of CPython `shlex.split(s, posix=True)` (with
`whitespace_split=True`, as `shlex.split` sets it): `tok` is the token
being accumulated, `started` records whether a token is in progress
(quotes start a token even if it stays empty), `acc` the finished
tokens. `none` models `ValueError` (unterminated quote, or a trailing
escape character). Outside quotes a backslash escapes any next
character; inside double quotes it escapes only `\` and `"`; inside
single quotes everything is literal. -/
def shlexAux : ShMode → List Char → List Char → Bool → List String → Option (List String)
  | .norm, [], tok, started, acc =>
    some (acc ++ if started then [String.mk tok] else [])
  | .norm, c :: cs, tok, started, acc =>
    if shWs c then
      if started then shlexAux .norm cs [] false (acc ++ [String.mk tok])
      else shlexAux .norm cs [] false acc
    else if c = bslash then
      match cs with
      | [] => none
      | d :: ds => shlexAux .norm ds (tok ++ [d]) true acc
    else if c = squote then shlexAux .single cs tok true acc
    else if c = dquote then shlexAux .double cs tok true acc
    else shlexAux .norm cs (tok ++ [c]) true acc
  | .single, [], _, _, _ => none
  | .single, c :: cs, tok, _, acc =>
    if c = squote then shlexAux .norm cs tok true acc
    else shlexAux .single cs (tok ++ [c]) true acc
  | .double, [], _, _, _ => none
  | .double, c :: cs, tok, _, acc =>
    if c = dquote then shlexAux .norm cs tok true acc
    else if c = bslash then
      match cs with
      | [] => none
      | d :: ds =>
        if d = bslash || d = dquote then shlexAux .double ds (tok ++ [d]) true acc
        else shlexAux .double ds (tok ++ [bslash, d]) true acc
    else shlexAux .double cs (tok ++ [c]) true acc

/-- Model of `shlex.split(command, posix=True)`; `none` models `ValueError`. -/
def shlexSplit (command : String) : Option (List String) :=
  shlexAux .norm command.toList [] false []

/-- Python `str` whitespace for `strip()`/`split()` (ASCII part; the
source only meets ASCII command strings). -/
def pySpace (c : Char) : Bool :=
  c = ' ' || c = '\t' || c = '\n' || c = '\r' || c = '\x0b' || c = '\x0c'

/-- Python `s.strip()`. -/
def pyStrip (s : String) : String :=
  String.mk (((s.toList.dropWhile pySpace).reverse.dropWhile pySpace).reverse)

/-- Helper for `s.split()`: accumulate maximal runs of non-whitespace. -/
def pySplitWsAux : List Char → List Char → List String
  | [], cur => if cur = [] then [] else [String.mk cur.reverse]
  | c :: cs, cur =>
    if pySpace c then
      if cur = [] then pySplitWsAux cs [] else String.mk cur.reverse :: pySplitWsAux cs []
    else pySplitWsAux cs (c :: cur)

/-- Python `s.split()` (no separator: split on whitespace runs,
discarding empty fields). -/
def pySplitWs (s : String) : List String := pySplitWsAux s.toList []

/-- Function `split_command` from `tgcodex/util/shlex_tokens.py`: POSIX
shell-word splitting, falling back to `command.strip().split()` when
`shlex.split` raises. -/
def split_command (command : String) : List String :=
  match shlexSplit command with
  | some ts => ts
  | none => pySplitWs (pyStrip command)

/-- Function `prefix_string` from `tgcodex/util/shlex_tokens.py`: the first `n`
tokens joined by single spaces (the enumerate/break loop in the source is
`List.take`). -/
def prefixJoin (tokens : List String) (n : Nat) : String :=
  String.intercalate " " (tokens.take n)

/-- Characters that `shlex.quote` leaves unquoted: ASCII word
characters plus at-sign, percent, plus, equals, colon, comma, dot,
slash and hyphen. -/
def shQuoteSafe (c : Char) : Bool :=
  ('a' ≤ c && c ≤ 'z') || ('A' ≤ c && c ≤ 'Z') || ('0' ≤ c && c ≤ '9') ||
    c = '_' || c = '@' || c = '%' || c = '+' || c = '=' || c = ':' ||
    c = ',' || c = '.' || c = '/' || c = '-'

/-- Model of `shlex.quote(s)`: empty strings quote to a pair of single quotes,
safe strings pass through, everything else is single-quoted with
embedded single quotes rendered as the five-character sequence
quote-doublequote-quote-doublequote-quote. -/
def shQuote (s : String) : String :=
  let sq := String.mk [squote]
  if s = "" then sq ++ sq
  else if s.toList.all shQuoteSafe then s
  else sq ++ s.replace sq (String.mk [squote, dquote, squote, dquote, squote]) ++ sq

/-- Model of `shlex.join(argv)`: quoted arguments joined by spaces. Total on
lists of strings, so the `try/except` fallback around it in the source is
unreachable. -/
def shlexJoin (argv : List String) : String :=
  String.intercalate " " (argv.map shQuote)

/-! ## Model of `json.loads` / `json.dumps` -/

/-- JSON whitespace accepted between tokens by `json.loads`. -/
def jsonWsChar (c : Char) : Bool :=
  c = ' ' || c = '\t' || c = '\n' || c = '\r'

/-- Skip JSON whitespace. -/
def jskip (cs : List Char) : List Char := cs.dropWhile jsonWsChar

/-- Left-brace character. -/
def lbrace : Char := Char.ofNat 123

/-- Right-brace character. -/
def rbrace : Char := Char.ofNat 125

/-- Hexadecimal digit value, if any. -/
def hexVal (c : Char) : Option Nat :=
  if '0' ≤ c && c ≤ '9' then some (c.toNat - 48)
  else if 'a' ≤ c && c ≤ 'f' then some (c.toNat - 87)
  else if 'A' ≤ c && c ≤ 'F' then some (c.toNat - 70)
  else none

/-- Value of exactly four hex digits. -/
def hex4v (a b c d : Char) : Option Nat := do
  let x ← hexVal a
  let y ← hexVal b
  let z ← hexVal c
  let w ← hexVal d
  some (((x * 16 + y) * 16 + z) * 16 + w)

/-- Parse the body of a JSON string literal (after the opening quote).
Strict mode: unescaped control characters are rejected. A lone
surrogate from a `\uXXXX` escape (which CPython would keep) is mapped
to U+FFFD since Lean `Char` excludes surrogates; no claim depends on
such inputs. -/
def jparseStr : List Char → Option (List Char × List Char)
  | [] => none
  | c :: rest =>
    if c = dquote then some ([], rest)
    else if c = bslash then
      match rest with
      | [] => none
      | e :: rest2 =>
        let simple : Option Char :=
          if e = dquote then some dquote
          else if e = bslash then some bslash
          else if e = '/' then some '/'
          else if e = 'b' then some (Char.ofNat 8)
          else if e = 'f' then some (Char.ofNat 12)
          else if e = 'n' then some (Char.ofNat 10)
          else if e = 'r' then some (Char.ofNat 13)
          else if e = 't' then some (Char.ofNat 9)
          else none
        match simple with
        | some ch => (jparseStr rest2).map (fun p => (ch :: p.1, p.2))
        | none =>
          if e = 'u' then
            match rest2 with
            | h1 :: h2 :: h3 :: h4 :: rest3 =>
              match hex4v h1 h2 h3 h4 with
              | none => none
              | some n =>
                if 0xd800 ≤ n && n ≤ 0xdbff then
                  match rest3 with
                  | b2 :: u2 :: g1 :: g2 :: g3 :: g4 :: rest5 =>
                    if b2 = bslash && u2 = 'u' then
                      match hex4v g1 g2 g3 g4 with
                      | some m =>
                        if 0xdc00 ≤ m && m ≤ 0xdfff then
                          let cp := 0x10000 + (n - 0xd800) * 0x400 + (m - 0xdc00)
                          (jparseStr rest5).map (fun p => (Char.ofNat cp :: p.1, p.2))
                        else
                          (jparseStr (b2 :: u2 :: g1 :: g2 :: g3 :: g4 :: rest5)).map
                            (fun p => (Char.ofNat 0xfffd :: p.1, p.2))
                      | none =>
                        (jparseStr (b2 :: u2 :: g1 :: g2 :: g3 :: g4 :: rest5)).map
                          (fun p => (Char.ofNat 0xfffd :: p.1, p.2))
                    else
                      (jparseStr (b2 :: u2 :: g1 :: g2 :: g3 :: g4 :: rest5)).map
                        (fun p => (Char.ofNat 0xfffd :: p.1, p.2))
                  | other => (jparseStr other).map (fun p => (Char.ofNat 0xfffd :: p.1, p.2))
                else if 0xdc00 ≤ n && n ≤ 0xdfff then
                  (jparseStr rest3).map (fun p => (Char.ofNat 0xfffd :: p.1, p.2))
                else
                  (jparseStr rest3).map (fun p => (Char.ofNat n :: p.1, p.2))
            | _ => none
          else none
    else if c.toNat < 0x20 then none
    else (jparseStr rest).map (fun p => (c :: p.1, p.2))

/-- Insert a key/value pair into a decoded object the way `json.loads`
builds dicts: a duplicate key overwrites in place. -/
def jAddPair (kvs : JObj) (k : String) (v : JVal) : JObj :=
  if kvs.any (fun p => p.1 == k) then
    kvs.map (fun p => if p.1 == k then (k, v) else p)
  else kvs ++ [(k, v)]

/-- Parse an unsigned JSON integer literal (no leading zeros). -/
def jparseDigits (cs : List Char) : Option (Nat × List Char) :=
  let ds := cs.takeWhile (fun c => '0' ≤ c && c ≤ '9')
  let rest := cs.dropWhile (fun c => '0' ≤ c && c ≤ '9')
  match ds with
  | [] => none
  | '0' :: _ :: _ => none
  | _ => some (ds.foldl (fun n c => n * 10 + (c.toNat - 48)) 0, rest)

/-- Parse a digit run allowing leading zeros (fraction/exponent part). -/
def jparseDigitsLoose (cs : List Char) : Option (Nat × Nat × List Char) :=
  let ds := cs.takeWhile (fun c => '0' ≤ c && c ≤ '9')
  let rest := cs.dropWhile (fun c => '0' ≤ c && c ≤ '9')
  match ds with
  | [] => none
  | _ => some (ds.foldl (fun n c => n * 10 + (c.toNat - 48)) 0, ds.length, rest)

/-- Parse a JSON number after an optional leading minus has been
recorded: `int` when there is no fraction and no exponent, `float`
otherwise (value kept exactly as a rational). -/
def jparseNumber (neg : Bool) (cs : List Char) : Option (JVal × List Char) := do
  let (ip, rest) ← jparseDigits cs
  let (fracNum, fracLen, rest2) :=
    match rest with
    | '.' :: r =>
      match jparseDigitsLoose r with
      | some (fn, fl, r2) => (some fn, fl, r2)
      | none => (none, 0, rest)
    | _ => (none, 0, rest)
  if fracNum.isNone && (match rest with | '.' :: _ => true | _ => false) then
    none
  else
    let (expVal, hasExp, rest3) :=
      match rest2 with
      | e :: r =>
        if e = 'e' || e = 'E' then
          let (esign, r2) :=
            match r with
            | s :: rr => if s = '+' then ((1 : Int), rr)
                         else if s = '-' then (-1, rr) else (1, r)
            | [] => (1, r)
          match jparseDigitsLoose r2 with
          | some (en, _, r3) => (some (esign * en), true, r3)
          | none => (none, true, r2)
        else (none, false, rest2)
      | [] => (none, false, rest2)
    if hasExp && expVal.isNone then none
    else
      match fracNum, expVal with
      | none, none => some (JVal.int (if neg then -(ip : Int) else ip), rest2)
      | _, _ =>
        let mantissa : Rat := (ip : Rat) + (fracNum.getD 0 : Rat) / ((10 : Rat) ^ fracLen)
        let e := expVal.getD 0
        let mag : Rat := if 0 ≤ e then mantissa * (10 : Rat) ^ e.toNat
                         else mantissa / (10 : Rat) ^ (-e).toNat
        some (JVal.float (if neg then -mag else mag), rest3)

/-- Match a literal keyword. -/
def jparseKeyword (kw : List Char) (cs : List Char) : Option (List Char) :=
  if cs.take kw.length = kw then some (cs.drop kw.length) else none

mutual

/-- Recursive-descent model of `json.loads`. `fuel` only bounds
nesting; every recursive step consumes at least one character, so the
initial fuel of input length + 1 never runs out. The extended Python
literals `NaN`, `Infinity` and `-Infinity` are accepted as floats
(their numeric value, immaterial to the embedding, is approximated
by 0). -/
def jparseVal (fuel : Nat) (cs0 : List Char) : Option (JVal × List Char) :=
  match fuel with
  | 0 => none
  | fuel + 1 =>
    match jskip cs0 with
    | [] => none
    | c :: rest =>
      if c = dquote then
        (jparseStr rest).map (fun p => (JVal.str (String.mk p.1), p.2))
      else if c = lbrace then jparseMembers fuel rest [] true
      else if c = '[' then jparseElems fuel rest [] true
      else if c = 't' then
        (jparseKeyword ['r', 'u', 'e'] rest).map (fun r => (JVal.bool true, r))
      else if c = 'f' then
        (jparseKeyword ['a', 'l', 's', 'e'] rest).map (fun r => (JVal.bool false, r))
      else if c = 'n' then
        (jparseKeyword ['u', 'l', 'l'] rest).map (fun r => (JVal.null, r))
      else if c = 'N' then
        (jparseKeyword ['a', 'N'] rest).map (fun r => (JVal.float 0, r))
      else if c = 'I' then
        (jparseKeyword ['n', 'f', 'i', 'n', 'i', 't', 'y'] rest).map
          (fun r => (JVal.float 0, r))
      else if c = '-' then
        match rest with
        | 'I' :: r2 =>
          (jparseKeyword ['n', 'f', 'i', 'n', 'i', 't', 'y'] r2).map
            (fun r => (JVal.float 0, r))
        | _ => jparseNumber true rest
      else jparseNumber false (c :: rest)

/-- Members of a JSON object (after the opening brace). -/
def jparseMembers (fuel : Nat) (cs0 : List Char) (acc : JObj) (first : Bool) :
    Option (JVal × List Char) :=
  match fuel with
  | 0 => none
  | fuel + 1 =>
    match jskip cs0 with
    | [] => none
    | c :: rest =>
      if c = rbrace && first then some (JVal.obj acc, rest)
      else if c = dquote then
        match jparseStr rest with
        | none => none
        | some (kcs, rest2) =>
          match jskip rest2 with
          | ':' :: rest3 =>
            match jparseVal fuel rest3 with
            | none => none
            | some (v, rest4) =>
              let acc := jAddPair acc (String.mk kcs) v
              match jskip rest4 with
              | ',' :: rest5 => jparseMembers fuel rest5 acc false
              | d :: rest5 => if d = rbrace then some (JVal.obj acc, rest5) else none
              | [] => none
          | _ => none
      else none

/-- Elements of a JSON array (after the opening bracket). -/
def jparseElems (fuel : Nat) (cs0 : List Char) (acc : List JVal) (first : Bool) :
    Option (JVal × List Char) :=
  match fuel with
  | 0 => none
  | fuel + 1 =>
    match jskip cs0 with
    | [] => none
    | c :: rest =>
      if c = ']' && first then some (JVal.arr acc, rest)
      else
        match jparseVal fuel cs0 with
        | none => none
        | some (v, rest2) =>
          match jskip rest2 with
          | ',' :: rest3 => jparseElems fuel rest3 (acc ++ [v]) false
          | d :: rest3 => if d = ']' then some (JVal.arr (acc ++ [v]), rest3) else none
          | [] => none

end

/-- Model of `json.loads(s)`; `none` models a raised `JSONDecodeError`
(including trailing garbage after a complete value). -/
def jsonDecode (s : String) : Option JVal :=
  let cs := jskip s.toList
  match jparseVal (cs.length + 1) cs with
  | some (v, rest) => if (jskip rest).isEmpty then some v else none
  | none => none

/-- Escape one character the way `json.dumps` (default
`ensure_ascii=True`) does. -/
def jsonEscapeChar (c : Char) : String :=
  if c = dquote then String.mk [bslash, dquote]
  else if c = bslash then String.mk [bslash, bslash]
  else if c = Char.ofNat 10 then String.mk [bslash, 'n']
  else if c = Char.ofNat 13 then String.mk [bslash, 'r']
  else if c = Char.ofNat 9 then String.mk [bslash, 't']
  else if c = Char.ofNat 8 then String.mk [bslash, 'b']
  else if c = Char.ofNat 12 then String.mk [bslash, 'f']
  else if c.toNat < 0x20 || 0x7f ≤ c.toNat then
    let hex := fun (n : Nat) =>
      let ds := Nat.toDigits 16 n
      String.mk (List.replicate (4 - ds.length) '0' ++ ds)
    if c.toNat ≤ 0xffff then String.mk [bslash, 'u'] ++ hex c.toNat
    else
      let v := c.toNat - 0x10000
      String.mk [bslash, 'u'] ++ hex (0xd800 + v / 0x400) ++
        String.mk [bslash, 'u'] ++ hex (0xdc00 + v % 0x400)
  else String.mk [c]

/-- Serialize a string literal as `json.dumps` does. -/
def jsonDumpStr (s : String) : String :=
  String.mk [dquote] ++ String.join (s.toList.map jsonEscapeChar) ++ String.mk [dquote]

mutual

/-- Model of `json.dumps(v, separators=(itemSep, kvSep))`. The float
rendering is best-effort (no claim inspects serialized floats). -/
def jsonDumps (itemSep kvSep : String) : JVal → String
  | JVal.null => "null"
  | JVal.bool b => if b then "true" else "false"
  | JVal.int n => toString n
  | JVal.float q => toString q
  | JVal.str s => jsonDumpStr s
  | JVal.arr xs =>
    "[" ++ String.intercalate itemSep (jsonDumpsArr itemSep kvSep xs) ++ "]"
  | JVal.obj kvs =>
    "\x7b" ++ String.intercalate itemSep (jsonDumpsKvs itemSep kvSep kvs) ++ "\x7d"

/-- Serialized forms of array elements. -/
def jsonDumpsArr (itemSep kvSep : String) : List JVal → List String
  | [] => []
  | v :: vs => jsonDumps itemSep kvSep v :: jsonDumpsArr itemSep kvSep vs

/-- Serialized forms of object members. -/
def jsonDumpsKvs (itemSep kvSep : String) : List (String × JVal) → List String
  | [] => []
  | (k, v) :: vs =>
    (jsonDumpStr k ++ kvSep ++ jsonDumps itemSep kvSep v) :: jsonDumpsKvs itemSep kvSep vs

end

/-! ## `tgcodex/codex/events.py` -/

/-- The closed internal event algebra (`CodexEvent` union in
`tgcodex/codex/events.py`); constructor fields follow the dataclass
fields in order. -/
inductive CodexEvent where
  | ThreadStarted (thread_id : String)
  | TurnStarted
  | TurnCompleted (input_tokens output_tokens cached_input_tokens : Option Int)
  | TurnFailed (message : String)
  | AgentMessageDelta (text : String)
  | AgentMessage (text : String)
  | AgentReasoningDelta (text : String)
  | TokenCount (model_context_window total_tokens input_tokens output_tokens
      cached_input_tokens reasoning_output_tokens : Option Int)
      (primary_used_percent : Option Rat)
      (primary_window_minutes primary_resets_at : Option Int)
      (secondary_used_percent : Option Rat)
      (secondary_window_minutes secondary_resets_at : Option Int)
      (raw : JObj)
  | ExecApprovalRequest (command : String) (cwd reason call_id : Option String)
      (command_argv : Option (List String)) (outer_id : Option String) (raw : JObj)
  | ExecCommandOutputDelta (text : String) (raw : JObj)
  | ExecCommandEnd (exit_code : Option Int) (aggregated_output : Option String)
      (raw : JObj)
  | ToolStarted (command : String)
  | LogLine (text : String)
  | ErrorEvent (message : String) (raw : Option JObj)

/-- Python `d.get(k, default)` for a dict: unlike `.get(k)`, the
default applies only when the key is absent (a present `null` is
returned as is). -/
def JVal.getD (o : JObj) (k : String) (d : JVal) : JVal :=
  match o.find? (fun p => p.1 == k) with
  | some p => p.2
  | none => d

/-- Python `v == s` for a string literal `s`: true only when `v` is
that string. -/
def JVal.eqStr (v : JVal) (s : String) : Bool :=
  match v with
  | JVal.str t => t == s
  | _ => false

/-- Function `_first_str` from `tgcodex/codex/events.py`: the first key whose
value is a non-empty string. -/
def firstStr (o : JObj) : List String → Option String
  | [] => none
  | k :: ks =>
    match JVal.get o k with
    | JVal.str s => if s ≠ "" then some s else firstStr o ks
    | _ => firstStr o ks

/-- Function `_parse_item` from `tgcodex/codex/events.py`: one item object from
`item.completed`/`item.started`. The `" ".join` calls can raise
`TypeError` on non-string elements, hence the `Except`. -/
def parseItem (item rawOuter : JObj) (outerId : Option String) :
    Except String (List CodexEvent) :=
  let itemType := JVal.get item "type"
  if itemType.eqStr "agent_message" then
    let text := ((JVal.get item "text").orElse (JVal.get item "message")).orElse
      (JVal.str "")
    match text with
    | JVal.str s => if s ≠ "" then .ok [.AgentMessage s] else .ok []
    | _ => .ok []
  else if itemType.eqStr "reasoning" then do
    let text1 := (JVal.get item "text").orElse (JVal.str "")
    let text2 ←
      if !text1.truthy then
        match (JVal.get item "summary").orElse (JVal.arr []) with
        | JVal.arr xs =>
          let parts := xs.filterMap (fun s =>
            match s with
            | JVal.obj skvs =>
              if (JVal.get skvs "type").eqStr "summary_text" then
                some (JVal.getD skvs "text" (JVal.str ""))
              else none
            | _ => none)
          (pyJoin " " parts).map JVal.str
        | _ => pure text1
      else pure text1
    match text2 with
    | JVal.str s => if s ≠ "" then .ok [.AgentReasoningDelta s] else .ok []
    | _ => .ok []
  else if itemType.eqStr "command_execution" then
    if (JVal.get item "status").eqStr "completed" then do
      -- The source computes the joined command here without using it;
      -- the join can still raise TypeError.
      let _ ←
        match (JVal.get item "command").orElse (JVal.str "") with
        | JVal.arr xs => (pyJoin " " xs).map (fun _ => ())
        | _ => .ok ()
      let ec : Option Int :=
        match JVal.get item "exit_code" with
        | JVal.int n => some n
        | _ => none
      .ok [.ExecCommandEnd ec ((JVal.get item "aggregated_output").asStr?) rawOuter]
    else .ok []
  else if itemType.eqStr "exec_approval_request" then
    let cmd0 := JVal.get item "command"
    let cmdV : JVal :=
      match cmd0 with
      | JVal.arr xs => JVal.str (shlexJoin (xs.map JVal.pyStr))
      | _ => cmd0
    let cmdS : String :=
      match cmdV with
      | JVal.str s => s
      | _ => ""
    if cmdS ≠ "" then
      let argv : Option (List String) :=
        match cmd0 with
        | JVal.arr xs => some (xs.map JVal.pyStr)
        | _ => none
      .ok [.ExecApprovalRequest cmdS ((JVal.get item "cwd").asStr?)
        ((JVal.get item "reason").asStr?) ((JVal.get item "call_id").asStr?)
        argv outerId rawOuter]
    else .ok []
  else .ok []

/-- The `token_count` branch of `parse_event_obj`: every access is
type-guarded in the source, so it never raises. -/
def parseTokenCount (obj : JObj) : List CodexEvent :=
  let (mcw, tt, it, ot, cit, rot) :=
    match JVal.get obj "info" with
    | JVal.obj i =>
      let mcw := (JVal.get i "model_context_window").asInt?
      match (JVal.get i "last_token_usage").orElse (JVal.get i "total_token_usage") with
      | JVal.obj u =>
        (mcw, (JVal.get u "total_tokens").asInt?, (JVal.get u "input_tokens").asInt?,
          (JVal.get u "output_tokens").asInt?,
          (JVal.get u "cached_input_tokens").asInt?,
          (JVal.get u "reasoning_output_tokens").asInt?)
      | _ => (mcw, none, none, none, none, none)
    | _ => (none, none, none, none, none, none)
  let unpackRl : JVal → Option Rat × Option Int × Option Int := fun w =>
    match w with
    | JVal.obj p =>
      ((JVal.get p "used_percent").asNum?, (JVal.get p "window_minutes").asInt?,
        (JVal.get p "resets_at").asInt?)
    | _ => (none, none, none)
  let (pu, pw, pr, su, sw, sr) :=
    match JVal.get obj "rate_limits" with
    | JVal.obj r =>
      let (a, b, c) := unpackRl (JVal.get r "primary")
      let (d, e, f) := unpackRl (JVal.get r "secondary")
      (a, b, c, d, e, f)
    | _ => (none, none, none, none, none, none)
  [.TokenCount mcw tt it ot cit rot pu pw pr su sw sr obj]

/-- All branches of `parse_event_obj` except the
`event_msg`/`response_item` wrapper recursion (hoisted into
`parse_event_obj` itself). The if-chain of the source falls through to
`return []` whenever an inner guard fails, since no two branches
match the same `type` discriminator. -/
def parseRest (rawOuter : JObj) (outerId : Option String) (obj : JObj) :
    Except String (List CodexEvent) :=
  let t := JVal.get obj "type"
  if t.eqStr "session_meta" then
    match JVal.get obj "payload" with
    | JVal.obj p =>
      match JVal.get p "id" with
      | JVal.str s => if s ≠ "" then .ok [.ThreadStarted s] else .ok []
      | _ => .ok []
    | _ => .ok []
  else if t.eqStr "item.completed" || t.eqStr "item_completed" then
    match JVal.get obj "item" with
    | JVal.obj item => parseItem item rawOuter outerId
    | _ => .ok []
  else if t.eqStr "item.started" || t.eqStr "item_started" then
    match JVal.get obj "item" with
    | JVal.obj item => do
      let parsed ← parseItem item rawOuter outerId
      if !parsed.isEmpty then .ok parsed
      else if (JVal.get item "type").eqStr "command_execution" then
        match (JVal.get item "command").orElse (JVal.str "") with
        | JVal.arr xs => do
          let j ← pyJoin " " xs
          if j ≠ "" then .ok [.ToolStarted j] else .ok []
        | cmd0 => if cmd0.truthy then .ok [.ToolStarted cmd0.pyStr] else .ok []
      else .ok []
    | _ => .ok []
  else if t.eqStr "thread.started" then
    match JVal.get obj "thread_id" with
    | JVal.str s => .ok [.ThreadStarted s]
    | _ => .ok []
  else if t.eqStr "turn.started" then .ok [.TurnStarted]
  else if t.eqStr "turn.completed" then
    match (JVal.get obj "usage").orElse (JVal.obj []) with
    | JVal.obj u =>
      .ok [.TurnCompleted ((JVal.get u "input_tokens").asInt?)
        ((JVal.get u "output_tokens").asInt?)
        ((JVal.get u "cached_input_tokens").asInt?)]
    | _ => .error "AttributeError"
  else if t.eqStr "turn.failed" then
    let m1 :=
      match JVal.get obj "error" with
      | JVal.obj e => JVal.get e "message"
      | _ => JVal.null
    let m2 := if m1.isStr then m1 else JVal.get obj "message"
    .ok [.TurnFailed (match m2 with | JVal.null => "turn failed" | v => v.pyStr)]
  else if t.eqStr "error" || t.eqStr "stream_error" then
    let m := ((JVal.get obj "message").orElse
      (JVal.get obj "error_description")).orElse (JVal.get obj "error")
    .ok [.ErrorEvent m.pyStr (some obj)]
  else if t.eqStr "agent_message_delta" || t.eqStr "agent_message_content_delta" then
    let d := ((JVal.get obj "delta").orElse (JVal.get obj "text")).orElse
      (JVal.get obj "message")
    match d with
    | JVal.str s => if s ≠ "" then .ok [.AgentMessageDelta s] else .ok []
    | _ => .ok []
  else if t.eqStr "agent_message" then
    match (JVal.get obj "message").orElse (JVal.get obj "text") with
    | JVal.str s => if s ≠ "" then .ok [.AgentMessage s] else .ok []
    | _ => .ok []
  else if t.eqStr "agent_reasoning_delta" || t.eqStr "reasoning_content_delta" ||
      t.eqStr "reasoning_raw_content_delta" then
    let d := ((JVal.get obj "delta").orElse (JVal.get obj "text")).orElse
      (JVal.get obj "content")
    match d with
    | JVal.str s => if s ≠ "" then .ok [.AgentReasoningDelta s] else .ok []
    | _ => .ok []
  else if t.eqStr "token_count" then .ok (parseTokenCount obj)
  else if t.eqStr "function_call" then
    let argsRaw := JVal.get obj "arguments"
    if (JVal.get obj "name").eqStr "exec_command" && (argsRaw.isStr || argsRaw.isDict) then
      let args : Option JVal :=
        match argsRaw with
        | JVal.str s => jsonDecode s
        | JVal.obj _ => some argsRaw
        | _ => none
      match args with
      | some (JVal.obj akvs) =>
        let cmd0 := JVal.get akvs "cmd"
        let cmdV : JVal :=
          match cmd0 with
          | JVal.arr xs => JVal.str (shlexJoin (xs.map JVal.pyStr))
          | _ => cmd0
        match cmdV with
        | JVal.str c =>
          if c ≠ "" then
            let callId := (JVal.get obj "call_id").asStr?
            match JVal.get akvs "sandbox_permissions" with
            | JVal.str sps =>
              if sps.startsWith "require" then
                .ok [.ExecApprovalRequest c ((JVal.get akvs "cwd").asStr?)
                  ((JVal.get akvs "justification").asStr?) callId none outerId rawOuter]
              else .ok [.ToolStarted c]
            | _ => .ok [.ToolStarted c]
          else .ok []
        | _ => .ok []
      | _ => .ok []
    else .ok []
  else if t.eqStr "function_call_output" then
    match JVal.get obj "output" with
    | JVal.str s => .ok [.ExecCommandEnd none (some s) obj]
    | _ => .ok []
  else if t.eqStr "exec_approval_request" then
    let cmd0 := JVal.get obj "command"
    let cmdV : JVal :=
      match cmd0 with
      | JVal.arr xs => JVal.str (shlexJoin (xs.map JVal.pyStr))
      | _ => cmd0
    let cOpt : Option String :=
      match cmdV with
      | JVal.str s => some s
      | _ => firstStr obj ["codex_command", "cmd"]
    let cwd := firstStr obj ["cwd", "codex_cwd", "working_directory"]
    let reason := firstStr obj ["reason", "codex_reason"]
    let callId := (JVal.get obj "call_id").asStr?
    let argv : Option (List String) :=
      match cmd0 with
      | JVal.arr xs => some (xs.map JVal.pyStr)
      | _ => none
    match cOpt with
    | some c =>
      if c ≠ "" then .ok [.ExecApprovalRequest c cwd reason callId argv outerId rawOuter]
      else .ok []
    | none => .ok []
  else if t.eqStr "exec_command_output_delta" then
    match firstStr obj ["chunk", "text", "output", "delta", "aggregated_output"] with
    | some s => .ok [.ExecCommandOutputDelta s obj]
    | none => .ok []
  else if t.eqStr "exec_command_end" then
    let ec : Option Int :=
      match JVal.get obj "exit_code" with
      | JVal.int n => some n
      | _ => none
    .ok [.ExecCommandEnd ec
      (firstStr obj ["aggregated_output", "formatted_output", "output"]) obj]
  else if t.eqStr "message" && (JVal.get obj "role").eqStr "assistant" then
    match (JVal.get obj "content").orElse (JVal.arr []) with
    | JVal.arr parts => do
      let texts := parts.filterMap (fun part =>
        match part with
        | JVal.obj pk =>
          if (JVal.get pk "type").eqStr "output_text" then
            some (JVal.getD pk "text" (JVal.str ""))
          else none
        | _ => none)
      let combined ← pyJoin "" texts
      if combined ≠ "" then .ok [.AgentMessage combined] else .ok []
    | _ => .ok []
  else .ok []

/-- Is `t` one of the legacy wrapper discriminators? -/
def isWrapperType (t : JVal) : Bool :=
  t.eqStr "event_msg" || t.eqStr "response_item"

/-- Termination measure fact: a dict value extracted by `JVal.get` is
structurally smaller than the dict it came from. -/
theorem sizeOf_jget_obj_lt {o : JObj} {k : String} {kvs : JObj}
    (h : JVal.get o k = JVal.obj kvs) : sizeOf kvs < sizeOf o := by
  unfold JVal.get at h
  cases hf : o.find? (fun p => p.1 == k) with
  | none => rw [hf] at h; exact absurd h (by simp)
  | some p =>
    rw [hf] at h
    have hmem := List.mem_of_find?_eq_some hf
    have hlt : sizeOf p < sizeOf o := List.sizeOf_lt_of_mem hmem
    obtain ⟨k2, v⟩ := p
    simp only at h
    subst h
    simp only [Prod.mk.sizeOf_spec, JVal.obj.sizeOf_spec] at hlt
    omega

/-- Function `parse_event_obj` from `tgcodex/codex/events.py`: unwrap a
protocol envelope `id`/`msg` (keeping the outer id for approvals),
recursively reparse legacy `event_msg`/`response_item` wrappers, and
otherwise dispatch on the `type` discriminator via `parseRest`. -/
def parse_event_obj (objIn : JObj) : Except String (List CodexEvent) :=
  match hm : JVal.get objIn "msg" with
  | JVal.obj mkvs =>
    let oid : Option String :=
      match JVal.get objIn "id" with
      | JVal.str s => if s ≠ "" then some s else none
      | _ => none
    if isWrapperType (JVal.get mkvs "type") then
      match hp : JVal.get mkvs "payload" with
      | JVal.obj pkvs => parse_event_obj pkvs
      | _ => parseRest objIn oid mkvs
    else parseRest objIn oid mkvs
  | _ =>
    if isWrapperType (JVal.get objIn "type") then
      match hp : JVal.get objIn "payload" with
      | JVal.obj pkvs => parse_event_obj pkvs
      | _ => parseRest objIn none objIn
    else parseRest objIn none objIn
termination_by sizeOf objIn
decreasing_by
  · have h1 := sizeOf_jget_obj_lt hm
    have h2 := sizeOf_jget_obj_lt hp
    omega
  · have := sizeOf_jget_obj_lt hp
    omega

/-- Function `parse_json_line` from `tgcodex/codex/events.py`: decode one line;
a decoding failure or a non-dict value is reported as the raw line. -/
def parse_json_line (line : String) : Option JObj × Option String :=
  match jsonDecode line with
  | none => (none, some line)
  | some v =>
    match v with
    | JVal.obj kvs => (some kvs, none)
    | _ => (none, some line)

/-! ## `tgcodex/codex/approvals.py` -/

/-- Dataclass `PrefixMatch` from `tgcodex/codex/approvals.py`. -/
structure PrefixMatch where
  pref : String
  matched : Bool
  deriving DecidableEq, Repr

/-- Function `command_prefix` from `tgcodex/codex/approvals.py`. -/
def commandPrefix (command : String) (prefixTokens : Nat) : String :=
  prefixJoin (split_command command) prefixTokens

/-- Function `is_trusted_prefix` from `tgcodex/codex/approvals.py`:
`matched` is membership of the derived prefix in the trusted set. -/
def isTrustedPrefix (command : String) (trustedPrefixes : List String)
    (prefixTokens : Nat) : PrefixMatch :=
  let p := commandPrefix command prefixTokens
  { pref := p, matched := trustedPrefixes.contains p }

/-- Function `should_prompt_for_approval` from `tgcodex/codex/approvals.py`.
Returns `(needs_prompt, canonical_prefix)`. -/
def should_prompt_for_approval (approvalPolicy : String) (command : String)
    (trustedPrefixes : List String) (prefixTokens : Nat) : Bool × String :=
  let m := isTrustedPrefix command trustedPrefixes prefixTokens
  if approvalPolicy = "never" then (false, m.pref)
  else if approvalPolicy = "untrusted" then (true, m.pref)
  else if approvalPolicy = "on-request" then (!m.matched, m.pref)
  else if approvalPolicy = "on-failure" then (true, m.pref)
  else (true, m.pref)

/-! ## `tgcodex/codex/app_server_rpc.py` -/

/-- Is a byte a UTF-8 continuation byte? -/
def utf8Cont (b : Nat) : Bool := 0x80 ≤ b && b ≤ 0xbf

/-- Model of `bytes.decode("utf-8", "replace")`. Invalid sequences
yield U+FFFD; the replacement granularity approximates the CPython
maximal-subpart rule (no claim depends on invalid byte sequences). -/
def utf8DecodeAux : List Nat → List Char
  | [] => []
  | b :: bs =>
    if b < 0x80 then Char.ofNat b :: utf8DecodeAux bs
    else if 0xc2 ≤ b && b ≤ 0xdf then
      match bs with
      | b2 :: rest =>
        if utf8Cont b2 then
          Char.ofNat ((b - 0xc0) * 64 + (b2 - 0x80)) :: utf8DecodeAux rest
        else Char.ofNat 0xfffd :: utf8DecodeAux (b2 :: rest)
      | [] => [Char.ofNat 0xfffd]
    else if 0xe0 ≤ b && b ≤ 0xef then
      match bs with
      | b2 :: b3 :: rest =>
        let okLead :=
          if b = 0xe0 then 0xa0 ≤ b2 && b2 ≤ 0xbf
          else if b = 0xed then 0x80 ≤ b2 && b2 ≤ 0x9f
          else utf8Cont b2
        if okLead && utf8Cont b3 then
          Char.ofNat (((b - 0xe0) * 64 + (b2 - 0x80)) * 64 + (b3 - 0x80)) ::
            utf8DecodeAux rest
        else Char.ofNat 0xfffd :: utf8DecodeAux (b2 :: b3 :: rest)
      | other => Char.ofNat 0xfffd :: utf8DecodeAux other
    else if 0xf0 ≤ b && b ≤ 0xf4 then
      match bs with
      | b2 :: b3 :: b4 :: rest =>
        let okLead :=
          if b = 0xf0 then 0x90 ≤ b2 && b2 ≤ 0xbf
          else if b = 0xf4 then 0x80 ≤ b2 && b2 ≤ 0x8f
          else utf8Cont b2
        if okLead && utf8Cont b3 && utf8Cont b4 then
          Char.ofNat ((((b - 0xf0) * 64 + (b2 - 0x80)) * 64 + (b3 - 0x80)) * 64 +
            (b4 - 0x80)) :: utf8DecodeAux rest
        else Char.ofNat 0xfffd :: utf8DecodeAux (b2 :: b3 :: b4 :: rest)
      | other => Char.ofNat 0xfffd :: utf8DecodeAux other
    else Char.ofNat 0xfffd :: utf8DecodeAux bs

/-- Decode raw bytes as UTF-8 with replacement. -/
def utf8Decode (bs : List Nat) : String := String.mk (utf8DecodeAux bs)

/-- The decoded, stripped text of one raw line, as
`JsonLineBuffer.feed` produces it:
`line.decode("utf-8", "replace").strip()`. -/
def lineText (bs : List Nat) : String := pyStrip (utf8Decode bs)

/-- Split off the bytes before the first newline (`buf.find(b"\n")`
plus `del buf[:idx+1]`); `none` when no newline is buffered. -/
def breakNl : List Nat → Option (List Nat × List Nat)
  | [] => none
  | b :: bs =>
    if b = 10 then some ([], bs)
    else (breakNl bs).map (fun p => (b :: p.1, p.2))

/-- The remainder returned by `breakNl` is strictly shorter. -/
theorem breakNl_rest_length {bs line rest : List Nat}
    (h : breakNl bs = some (line, rest)) : rest.length < bs.length := by
  induction bs generalizing line rest with
  | nil => simp [breakNl] at h
  | cons b tl ih =>
    unfold breakNl at h
    split at h
    · obtain ⟨h1, h2⟩ := Prod.mk.injEq .. ▸ Option.some.inj h
      subst h2
      simp
    · cases hbt : breakNl tl with
      | none => rw [hbt] at h; simp at h
      | some p =>
        obtain ⟨l2, r2⟩ := p
        rw [hbt] at h
        obtain ⟨h1, h2⟩ := Prod.mk.injEq .. ▸ Option.some.inj h
        subst h2
        have := ih hbt
        simp only [List.length_cons]
        omega

/-- The extraction loop of `JsonLineBuffer.feed`: repeatedly take the
bytes before the next newline, decode, strip, and keep non-empty
lines; the bytes after the last newline stay buffered. -/
def feedLoop (bs : List Nat) : List String × List Nat :=
  match h : breakNl bs with
  | none => ([], bs)
  | some (line, rest) =>
    have := breakNl_rest_length h
    let (ls, buf) := feedLoop rest
    (if lineText line ≠ "" then lineText line :: ls else ls, buf)
termination_by bs.length

/-- Method `JsonLineBuffer.feed` from `tgcodex/codex/app_server_rpc.py`: the
buffer state is the carried byte list. -/
def jsonLineBufferFeed (buf chunk : List Nat) : List String × List Nat :=
  feedLoop (buf ++ chunk)

/-- Reference segmentation of a byte sequence on newlines: the
segments between newlines, with the (possibly empty) trailing
segment last. -/
def splitOnNl : List Nat → List (List Nat)
  | [] => [[]]
  | b :: bs =>
    if b = 10 then [] :: splitOnNl bs
    else
      match splitOnNl bs with
      | [] => [[b]]
      | seg :: rest => (b :: seg) :: rest

/-- A structurally recursive reformulation of `feedLoop` used by the
proofs: `cur` is the newline-free byte run accumulated so far (the
buffered bytes). `feedLoop_eq_scanLines` links the two. -/
def scanLines (cur : List Nat) : List Nat → List String × List Nat
  | [] => ([], cur)
  | b :: bs =>
    if b = 10 then
      let (ls, buf) := scanLines [] bs
      (if lineText cur ≠ "" then lineText cur :: ls else ls, buf)
    else scanLines (cur ++ [b]) bs

/-- Feeding a sequence of chunks to one `JsonLineBuffer`, collecting
the produced lines in order. -/
def feedMany (buf : List Nat) : List (List Nat) → List String × List Nat
  | [] => ([], buf)
  | ch :: chs =>
    let (ls, buf2) := jsonLineBufferFeed buf ch
    let (ls2, buf3) := feedMany buf2 chs
    (ls ++ ls2, buf3)

/-- The non-empty stripped texts of all segments preceding a newline
(i.e. all but the last segment of `splitOnNl`). -/
def segLines : List (List Nat) → List String
  | [] => []
  | [_] => []
  | seg :: rest =>
    (if lineText seg ≠ "" then [lineText seg] else []) ++ segLines rest

/-- The trailing segment of `splitOnNl` (the bytes after the last
newline). -/
def segLast : List (List Nat) → List Nat
  | [] => []
  | [seg] => seg
  | _ :: rest => segLast rest

/-- A JSON-RPC request id: the source accepts `str | int` (a JSON
`true`/`false` also passes `isinstance(x, (str, int))` and is the
int 1/0). -/
inductive RequestId where
  | s (s : String)
  | i (n : Int)
  deriving DecidableEq, Repr

/-- Property `JsonRpcIncoming.id`: `obj.get("id")` when
`isinstance(rid, (str, int))`. -/
def asRequestId : JVal → Option RequestId
  | JVal.str s => some (RequestId.s s)
  | JVal.int n => some (RequestId.i n)
  | JVal.bool b => some (RequestId.i (if b then 1 else 0))
  | _ => none

/-- Python `str(rid)` for a request id. -/
def ridStr : RequestId → String
  | RequestId.s s => s
  | RequestId.i n => toString n

/-- A request id as a JSON value on the wire. -/
def ridVal : RequestId → JVal
  | RequestId.s s => JVal.str s
  | RequestId.i n => JVal.int n

/-- State of one `asyncio.Future` created by `request()`. -/
inductive FutureState where
  | pending
  | resolvedOk (v : JVal)
  | rejected (e : JVal)

/-- Python `fut.done()`. -/
def FutureState.done : FutureState → Bool
  | FutureState.pending => false
  | _ => true

/-- State of `JsonRpcConnection`: `futures` holds every future ever
created by `request()` (callers keep awaiting them even after they
leave the pending map); `pendingIds` is the key set of the
`_pending` dict; `sentObjs` records objects passed to `write_obj`
(their newline-delimited JSON encoding is plumbing). -/
structure JsonRpcConnection where
  nextId : Int := 1
  futures : List (RequestId × FutureState) := []
  pendingIds : List RequestId := []
  closed : Bool := false
  sentObjs : List JObj := []
  stdoutBuf : List Nat := []
  stderrBuf : List Nat := []

/-- Externally visible effects of feeding inbound bytes. -/
inductive RpcAction where
  | serverRequest (obj : JObj)
  | notification (obj : JObj)
  | logLine (text : String)

/-- Method `JsonRpcConnection.close`: mark closed, reject every pending
future still in the `_pending` map with a "connection closed" error,
and clear the map. -/
def JsonRpcConnection.close (c : JsonRpcConnection) : JsonRpcConnection :=
  { c with
    closed := true
    futures := c.futures.map (fun p =>
      if c.pendingIds.contains p.1 && !p.2.done then
        (p.1, FutureState.rejected (JVal.str "connection closed"))
      else p)
    pendingIds := [] }

/-- Method `write_obj`: raises `JsonRpcError("connection closed")` when the
connection is closed, otherwise emits one JSON object on stdin. -/
def JsonRpcConnection.write_obj (c : JsonRpcConnection) (obj : JObj) :
    JsonRpcConnection × Except String Unit :=
  if c.closed then (c, .error "connection closed")
  else ({ c with sentObjs := c.sentObjs ++ [obj] }, .ok ())

/-- Method `request`: allocate the next integer id, register a pending
future, and write `{id, method, params}`; the returned id stands for
the future the caller awaits. -/
def JsonRpcConnection.request (c0 : JsonRpcConnection) (method : String)
    (params : JVal) : JsonRpcConnection × Except String RequestId :=
  let n := c0.nextId
  let rid := RequestId.i n
  let c1 := { c0 with
    nextId := n + 1
    futures := c0.futures ++ [(rid, FutureState.pending)]
    pendingIds := c0.pendingIds ++ [rid] }
  match c1.write_obj [("id", JVal.int n), ("method", JVal.str method),
      ("params", params)] with
  | (c2, .ok _) => (c2, .ok rid)
  | (c2, .error e) => (c2, .error e)

/-- Method `respond`: write `{id, result}` for a server-initiated request. -/
def JsonRpcConnection.respond (c : JsonRpcConnection) (requestId : RequestId)
    (result : JVal) : JsonRpcConnection × Except String Unit :=
  c.write_obj [("id", ridVal requestId), ("result", result)]

/-- Does the decoded object carry a non-null `error` member? -/
def hasNonNullError (obj : JObj) : Bool :=
  obj.any (fun p => p.1 == "error") &&
    (match JVal.get obj "error" with
     | JVal.null => false
     | _ => true)

/-- Method `_handle_incoming`: classify a decoded object as response (resolve
or reject the matching pending future; unknown/duplicate ids are
dropped), server request, notification, or unknown log-like object. -/
def JsonRpcConnection.handleIncoming (c : JsonRpcConnection) (obj : JObj) :
    JsonRpcConnection × List RpcAction :=
  let incId := asRequestId (JVal.get obj "id")
  let incMethod := (JVal.get obj "method").asStr?
  match incId, incMethod with
  | some rid, none =>
    if c.pendingIds.contains rid then
      let c2 := { c with pendingIds := c.pendingIds.filter (fun r => r ≠ rid) }
      match (c.futures.find? (fun p => p.1 = rid)).map Prod.snd with
      | some FutureState.pending =>
        let newSt :=
          if hasNonNullError obj then FutureState.rejected (JVal.get obj "error")
          else FutureState.resolvedOk (JVal.get obj "result")
        ({ c2 with futures := c2.futures.map (fun p =>
            if p.1 = rid then (rid, newSt) else p) }, [])
      | _ => (c2, [])
    else (c, [])
  | some _, some _ => (c, [RpcAction.serverRequest obj])
  | none, some _ => (c, [RpcAction.notification obj])
  | none, none => (c, [RpcAction.logLine (jsonDumps ", " ": " (JVal.obj obj))])

/-- One framed stdout line inside `feed_stdout`: a line that fails
`json.loads` goes to the log callback; a decoded non-dict value is
skipped; a decoded dict is dispatched. -/
def JsonRpcConnection.processLine (c : JsonRpcConnection) (line : String) :
    JsonRpcConnection × List RpcAction :=
  match jsonDecode line with
  | none => (c, [RpcAction.logLine line])
  | some (JVal.obj kvs) => c.handleIncoming kvs
  | some _ => (c, [])

/-- Method `feed_stdout`: frame buffered bytes into lines and process each. -/
def JsonRpcConnection.feed_stdout (c : JsonRpcConnection) (chunk : List Nat) :
    JsonRpcConnection × List RpcAction :=
  let (lines, buf) := jsonLineBufferFeed c.stdoutBuf chunk
  lines.foldl
    (fun acc line =>
      let (c2, acts) := JsonRpcConnection.processLine acc.1 line
      (c2, acc.2 ++ acts))
    ({ c with stdoutBuf := buf }, [])

/-- Method `feed_stderr`: every framed stderr line goes to the log callback. -/
def JsonRpcConnection.feed_stderr (c : JsonRpcConnection) (chunk : List Nat) :
    JsonRpcConnection × List RpcAction :=
  let (lines, buf) := jsonLineBufferFeed c.stderrBuf chunk
  ({ c with stderrBuf := buf }, lines.map RpcAction.logLine)

/-- Issue `n` successive calls to `request()` whose responses have not
arrived. -/
def issueRequests (c : JsonRpcConnection) : Nat → JsonRpcConnection
  | 0 => c
  | n + 1 => issueRequests (c.request "m" (JVal.obj [])).1 n

/-! ## `tgcodex/codex/app_server_backend.py` and
`tgcodex/codex/cli_runner.py` sessions -/

/-- State of `AppServerSession`: the event queue carries `none` as the
terminating sentinel (`await self._queue.put(None)`). -/
structure AppServerSession where
  closed : Bool := false
  queue : List (Option CodexEvent) := []
  rpc : JsonRpcConnection := {}
  thread_id : Option String := none
  turn_id : Option String := none

/-- Method `AppServerSession.push_event`: record the thread id from
`ThreadStarted`, then enqueue. -/
def AppServerSession.push_event (s : AppServerSession) (ev : CodexEvent) :
    AppServerSession :=
  let s :=
    match ev with
    | CodexEvent.ThreadStarted tid => { s with thread_id := some tid }
    | _ => s
  { s with queue := s.queue ++ [some ev] }

/-- Method `AppServerSession.close`: a no-op when already closed; otherwise
mark closed, close the RPC connection (exceptions swallowed; the
close of the model is total), and push the sentinel. -/
def AppServerSession.close (s : AppServerSession) : AppServerSession :=
  if s.closed then s
  else { s with
    closed := true
    rpc := s.rpc.close
    queue := s.queue ++ [none] }

/-- Method `close()` iterated `k` times. -/
def AppServerSession.closeIter (s : AppServerSession) : Nat → AppServerSession
  | 0 => s
  | k + 1 => (s.close).closeIter k

/-- A consumer of `events()`: the events yielded before the iterator
returns, or `none` if the consumer would block forever (no sentinel
reaches it). -/
def consumeQueue : List (Option CodexEvent) → Option (List CodexEvent)
  | [] => none
  | none :: _ => some []
  | some e :: rest => (consumeQueue rest).map (fun l => e :: l)

/-- Effects of `_on_server_request`. -/
inductive SessionEffect where
  | pushedEvent (ev : CodexEvent)
  | responded (rid : RequestId) (result : JObj)

/-- Method `AppServerSession._on_server_request`: the two recognized approval
methods become `ExecApprovalRequest` events carrying the RPC id as
`call_id`; any other server request is answered with a decline result
(errors from the write swallowed). -/
def AppServerSession.on_server_request (s : AppServerSession) (req : JObj) :
    AppServerSession × List SessionEffect :=
  match asRequestId (JVal.get req "id") with
  | none => (s, [])
  | some rid =>
    let method := ((JVal.get req "method").asStr?).getD ""
    let params : JObj :=
      match JVal.get req "params" with
      | JVal.obj p => p
      | _ => []
    if method == "item/commandExecution/requestApproval" then
      let ev := CodexEvent.ExecApprovalRequest
        (((JVal.get params "command").asStr?).getD "")
        ((JVal.get params "cwd").asStr?)
        ((JVal.get params "reason").asStr?)
        (some (ridStr rid)) none none req
      (s.push_event ev, [SessionEffect.pushedEvent ev])
    else if method == "item/fileChange/requestApproval" then
      let ev := CodexEvent.ExecApprovalRequest "[file change approval]" none
        ((JVal.get params "reason").asStr?) (some (ridStr rid)) none none req
      (s.push_event ev, [SessionEffect.pushedEvent ev])
    else
      let result := [("decision", JVal.str "decline")]
      let (rpc2, _) := s.rpc.respond rid (JVal.obj result)
      ({ s with rpc := rpc2 }, [SessionEffect.responded rid result])

/-- State of `CodexRun` (`tgcodex/codex/cli_runner.py`): same queue
discipline as `AppServerSession`, without an RPC connection. -/
structure CodexRun where
  closed : Bool := false
  queue : List (Option CodexEvent) := []
  thread_id : Option String := none

/-- Method `CodexRun.push_event`. -/
def CodexRun.push_event (r : CodexRun) (ev : CodexEvent) : CodexRun :=
  let r :=
    match ev with
    | CodexEvent.ThreadStarted tid => { r with thread_id := some tid }
    | _ => r
  { r with queue := r.queue ++ [some ev] }

/-- Method `CodexRun.close`: no-op when already closed, else push the
sentinel. -/
def CodexRun.close (r : CodexRun) : CodexRun :=
  if r.closed then r
  else { r with closed := true, queue := r.queue ++ [none] }

/-- Method `close()` iterated `k` times. -/
def CodexRun.closeIter (r : CodexRun) : Nat → CodexRun
  | 0 => r
  | k + 1 => (r.close).closeIter k

/-! ## `tgcodex/state/store.py` telemetry -/

/-- The column updates computed by `update_token_telemetry`; `none`
means the column is left untouched. -/
structure TelemetryFields where
  last_total_tokens : Option Int := none
  last_context_window : Option Int := none
  last_context_remaining : Option Int := none
  last_input_tokens : Option Int := none
  last_output_tokens : Option Int := none
  last_cached_tokens : Option Int := none
  rate_primary_used_percent : Option Rat := none
  rate_primary_window_minutes : Option Int := none
  rate_primary_resets_at : Option Int := none
  rate_secondary_used_percent : Option Rat := none
  rate_secondary_window_minutes : Option Int := none
  rate_secondary_resets_at : Option Int := none

/-- Method `StateStore.update_token_telemetry` from `tgcodex/state/store.py`,
taking the `TokenCount` attributes it reads via `getattr` (each is an
`int` or `None` by construction of the event, so the `isinstance`
guards become `Option` matches). `last_context_remaining` is set to
`max(window - total, 0)` exactly when both the window and the total
are ints. -/
def update_token_telemetry (total window it ot cit : Option Int)
    (pUsed : Option Rat) (pWin pReset : Option Int)
    (sUsed : Option Rat) (sWin sReset : Option Int) : TelemetryFields :=
  { last_total_tokens := total
    last_context_window := window
    last_context_remaining :=
      match total, window with
      | some t, some w => some (max (w - t) 0)
      | _, _ => none
    last_input_tokens := it
    last_output_tokens := ot
    last_cached_tokens := cit
    rate_primary_used_percent := pUsed
    rate_primary_window_minutes := pWin
    rate_primary_resets_at := pReset
    rate_secondary_used_percent := sUsed
    rate_secondary_window_minutes := sWin
    rate_secondary_resets_at := sReset }

/-! ## `tgcodex/bot/callbacks.py` approval decision handling -/

/-- The active-run row of the store for a conversation. -/
structure ActiveRunRow where
  run_id : String
  status : String
  pending_action_json : Option String

/-- Context the callback handler reads: the recorded active-run row,
whether `runtime.active_runs` still holds a live run handle, and
whether `run.respond_approval` succeeds (with the exception text when
it does not). -/
structure CbCtx where
  activeRow : Option ActiveRunRow
  hasRunHandle : Bool
  sendOk : Bool
  sendErr : String

/-- User-visible and wire effects of the approval callback handler. -/
inductive CbEffect where
  | message (text : String)
  | decision (rpcId : RequestId) (requestKind decision : String)
      (amendment : Option (List String))

/-- Python `data.split(":", 1)` when `":" in data`. -/
def splitColon1Aux : List Char → Option (List Char × List Char)
  | [] => none
  | c :: cs =>
    if c = ':' then some ([], cs)
    else (splitColon1Aux cs).map (fun p => (c :: p.1, p.2))

/-- Split callback data at the first colon; `none` models the
early return of the handler when `":" not in data`. -/
def splitColon1 (data : String) : Option (String × String) :=
  (splitColon1Aux data.toList).map (fun p => (String.mk p.1, String.mk p.2))

/-- The approval tail of `on_callback_query`
(`tgcodex/bot/callbacks.py`): parse `action:run_id`, validate the
recorded active run, the pending-action JSON blob and the run handle,
map the button to a wire decision, send it, and clear the pending
action. Returns the new active-run row and the emitted effects; the
`Except` models `json.loads` raising out of the handler on a corrupt
pending blob. -/
def on_approval_callback (data : String) (ctx : CbCtx) :
    Except String (Option ActiveRunRow × List CbEffect) :=
  match splitColon1 data with
  | none => .ok (ctx.activeRow, [])
  | some (action, runId) =>
    if action ≠ "approve_once" && action ≠ "approve_similar" && action ≠ "reject" then
      .ok (ctx.activeRow, [])
    else
      match ctx.activeRow with
      | none => .ok (ctx.activeRow, [CbEffect.message "Stale approval; no active run."])
      | some active =>
        if active.run_id ≠ runId then
          .ok (ctx.activeRow, [CbEffect.message "Stale approval; no active run."])
        else
          match active.pending_action_json with
          | none => .ok (ctx.activeRow, [CbEffect.message "No pending approval."])
          | some pjson =>
            if pjson = "" then
              .ok (ctx.activeRow, [CbEffect.message "No pending approval."])
            else
              match jsonDecode pjson with
              | none => .error "JSONDecodeError"
              | some (JVal.obj pk) =>
                if !(JVal.get pk "type").eqStr "approval_request" then
                  .ok (ctx.activeRow, [CbEffect.message "Pending action mismatch."])
                else if !ctx.hasRunHandle then
                  .ok (none, [CbEffect.message "Run handle missing (restart?)."])
                else
                  let rk := JVal.get pk "request_kind"
                  if !(rk.eqStr "commandExecution") && !(rk.eqStr "fileChange") then
                    .ok (ctx.activeRow,
                      [CbEffect.message "Pending approval missing request kind."])
                  else
                    let requestKind := (rk.asStr?).getD ""
                    match asRequestId (JVal.get pk "rpc_id") with
                    | none =>
                      .ok (ctx.activeRow,
                        [CbEffect.message "Pending approval missing rpc id."])
                    | some rpcId =>
                      let (decision, amendment) :=
                        if action = "reject" then ("decline", none)
                        else if action = "approve_similar" then
                          match requestKind == "commandExecution",
                              JVal.get pk "proposed_execpolicy_amendment" with
                          | true, JVal.arr xs =>
                            if xs.all JVal.isStr then
                              ("acceptWithExecpolicyAmendment",
                                some (xs.filterMap JVal.asStr?))
                            else ("acceptForSession", none)
                          | _, _ => ("acceptForSession", none)
                        else ("accept", (none : Option (List String)))
                      if ctx.sendOk then
                        let newRow : ActiveRunRow :=
                          { run_id := runId
                            status := "running"
                            pending_action_json := none }
                        .ok (some newRow,
                          [CbEffect.decision rpcId requestKind decision amendment,
                            CbEffect.message ("Decision sent: " ++ decision ++ ".")])
                      else
                        .ok (ctx.activeRow,
                          [CbEffect.message ("Failed to send approval: " ++ ctx.sendErr)])
              | some _ =>
                .ok (ctx.activeRow, [CbEffect.message "Pending action mismatch."])

/-- C1: `should_prompt_for_approval` returns `(needs_prompt,
canonical_prefix)` where `needs_prompt` is `false` for policy
`never`; `true` for `untrusted` (even when the prefix is trusted);
the negation of trusted-prefix membership for `on-request`; `true`
for `on-failure`; and `true` for any other policy string (fail
closed). In every case `canonical_prefix` is the first `n` shell
tokens of the command joined by single spaces. -/
theorem approval_policy_decision_table (policy command : String)
    (trusted : List String) (n : Nat) :
    (policy = "never" →
      (should_prompt_for_approval policy command trusted n).1 = false) ∧
    (policy = "untrusted" →
      (should_prompt_for_approval policy command trusted n).1 = true) ∧
    (policy = "on-request" →
      (should_prompt_for_approval policy command trusted n).1 =
        !(trusted.contains (commandPrefix command n))) ∧
    (policy = "on-failure" →
      (should_prompt_for_approval policy command trusted n).1 = true) ∧
    (policy ≠ "never" → policy ≠ "untrusted" → policy ≠ "on-request" →
      policy ≠ "on-failure" →
      (should_prompt_for_approval policy command trusted n).1 = true) ∧
    (should_prompt_for_approval policy command trusted n).2 =
      String.intercalate " " ((split_command command).take n) := by
  refine ⟨?_, ?_, ?_, ?_, ?_, ?_⟩ <;>
    simp only [should_prompt_for_approval, isTrustedPrefix, commandPrefix,
      prefixJoin] <;>
    intros <;> split_ifs <;> simp_all

/-- Witness for C1: the two concrete examples from the decision
table. -/
theorem approval_policy_decision_table_witness :
    should_prompt_for_approval "on-request" "git push origin main" ["git push"] 2 =
      (false, "git push") ∧
    should_prompt_for_approval "untrusted" "git push" ["git push"] 2 =
      (true, "git push") := by
  have h1 := approval_policy_decision_table "on-request" "git push origin main"
    ["git push"] 2
  have h2 := approval_policy_decision_table "untrusted" "git push" ["git push"] 2
  constructor
  · rw [Prod.ext_iff]
    exact ⟨by rw [h1.2.2.1 rfl]; rfl, by rw [h1.2.2.2.2.2]; rfl⟩
  · rw [Prod.ext_iff]
    exact ⟨by rw [h2.2.1 rfl], by rw [h2.2.2.2.2.2]; rfl⟩

/-- C5: command-prefix derivation is total: when POSIX tokenization
fails (`shlex.split` raises, e.g. on malformed quoting) the tokenizer
falls back to naive whitespace splitting instead of raising; for
well-formed input the prefix is the first `n` tokens space-joined. -/
theorem command_prefix_total_with_fallback :
    (∀ command, shlexSplit command = none →
      split_command command = pySplitWs (pyStrip command)) ∧
    (∀ command tokens, shlexSplit command = some tokens → ∀ n,
      commandPrefix command n = String.intercalate " " (tokens.take n)) ∧
    commandPrefix "git status -sb" 2 = "git status" ∧
    shlexSplit "echo \x27unterminated" = none ∧
    split_command "echo \x27unterminated" = ["echo", "\x27unterminated"] := by
  refine ⟨?_, ?_, rfl, rfl, rfl⟩
  · intro c h
    simp [split_command, h]
  · intro c ts h n
    simp [commandPrefix, split_command, prefixJoin, h]

/-- Witness for C5: the fallback and well-formed branches at concrete
inputs. -/
theorem command_prefix_total_with_fallback_witness :
    split_command "echo \x27unterminated" = ["echo", "\x27unterminated"] ∧
    commandPrefix "ls -la /tmp" 2 = "ls -la" := by
  constructor
  · rw [command_prefix_total_with_fallback.1 "echo \x27unterminated" rfl]; rfl
  · rw [command_prefix_total_with_fallback.2.1 "ls -la /tmp"
      ["ls", "-la", "/tmp"] rfl 2]; rfl

/-- C4 (code bug): the wire event normalizer is not total on JSON
objects. On the object with `type` `"turn.completed"` and `usage`
`"x"` the source evaluates `usage.get("input_tokens")` on the string
`"x"` (the expression `obj.get("usage") or` empty-dict keeps any
truthy non-dict value) and raises `AttributeError` instead of
returning an event list. -/
theorem parse_event_obj_turn_completed_raises :
    parse_event_obj [("type", JVal.str "turn.completed"), ("usage", JVal.str "x")] =
      .error "AttributeError" := by
  unfold parse_event_obj
  rfl

/-- C7 (counterexample): a stdout line whose text is valid JSON but
not an object — here `"42"` — does not "fail to parse", yet it is not
delivered to the log callback: `feed_stdout` silently skips decoded
non-dict values (`if not isinstance(obj, dict): continue`), so the
claim that every line failing to parse as a JSON object is surfaced
as a log line is false. -/
theorem nonobject_json_line_dropped_silently :
    jsonDecode "42" = some (JVal.int 42) ∧
    JsonRpcConnection.processLine {} "42" = ({}, []) := by
  constructor
  · rfl
  · rfl

/-- C7 (amended): per framed stdout line, a line that raises in
`json.loads` is delivered to the log callback and never crashes the
pump; a line that decodes to a non-object JSON value is skipped
silently (not logged); a decoded object is dispatched to
`_handle_incoming`. -/
theorem feed_stdout_line_handling (c : JsonRpcConnection) (line : String) :
    (jsonDecode line = none →
      JsonRpcConnection.processLine c line = (c, [RpcAction.logLine line])) ∧
    (∀ v, jsonDecode line = some v → v.isDict = false →
      JsonRpcConnection.processLine c line = (c, [])) ∧
    (∀ kvs, jsonDecode line = some (JVal.obj kvs) →
      JsonRpcConnection.processLine c line = c.handleIncoming kvs) := by
  refine ⟨?_, ?_, ?_⟩
  · intro h
    simp [JsonRpcConnection.processLine, h]
  · intro v h hv
    cases v <;> simp_all [JsonRpcConnection.processLine, JVal.isDict]
  · intro kvs h
    simp [JsonRpcConnection.processLine, h]

/-- Witness for the amended C7 at concrete lines: an invalid JSON
line is logged, and a decoded object line is dispatched. -/
theorem feed_stdout_line_handling_witness :
    JsonRpcConnection.processLine {} "oops not json" =
      ({}, [RpcAction.logLine "oops not json"]) ∧
    JsonRpcConnection.processLine {} "\x7b\x22method\x22:\x22m\x22\x7d" =
      JsonRpcConnection.handleIncoming {} [("method", JVal.str "m")] := by
  constructor
  · exact (feed_stdout_line_handling {} "oops not json").1 rfl
  · exact (feed_stdout_line_handling {} "\x7b\x22method\x22:\x22m\x22\x7d").2.2
      [("method", JVal.str "m")] rfl

/-- C8: every server-initiated request (inbound object with both an
`id` and a `method`) whose method is not one of the two recognized
approval-request methods is still answered: the session replies on
the same connection with a decline result addressed to that
id of that request. -/
theorem unknown_server_request_answered_decline (s : AppServerSession)
    (req : JObj) (rid : RequestId)
    (hid : asRequestId (JVal.get req "id") = some rid)
    (h1 : ((JVal.get req "method").asStr?).getD "" ≠
      "item/commandExecution/requestApproval")
    (h2 : ((JVal.get req "method").asStr?).getD "" ≠
      "item/fileChange/requestApproval") :
    (s.on_server_request req).2 =
      [SessionEffect.responded rid [("decision", JVal.str "decline")]] ∧
    (s.rpc.closed = false →
      (s.on_server_request req).1.rpc.sentObjs =
        s.rpc.sentObjs ++
          [[("id", ridVal rid), ("result", JVal.obj [("decision", JVal.str "decline")])]]) := by
  unfold AppServerSession.on_server_request
  rw [hid]
  simp only [beq_iff_eq, if_neg h1, if_neg h2]
  constructor
  · trivial
  · intro hcl
    simp [JsonRpcConnection.respond, JsonRpcConnection.write_obj, hcl]

/-- Witness for C8: a concrete unrecognized server request is
declined at its own id. -/
theorem unknown_server_request_answered_decline_witness :
    (AppServerSession.on_server_request {}
        [("id", JVal.int 7), ("method", JVal.str "loginChatGpt")]).2 =
      [SessionEffect.responded (RequestId.i 7)
        [("decision", JVal.str "decline")]] :=
  (unknown_server_request_answered_decline {}
    [("id", JVal.int 7), ("method", JVal.str "loginChatGpt")]
    (RequestId.i 7) rfl (by decide) (by decide)).1

/-- A queue of real events followed by one sentinel yields exactly
those events to the consumer. -/
theorem consumeQueue_map_some_append (evs : List CodexEvent) :
    consumeQueue (evs.map some ++ [none]) = some evs := by
  induction evs with
  | nil => rfl
  | cons e tl ih => simp [consumeQueue, ih]

/-- A queue of real events followed by one sentinel holds exactly one
sentinel. -/
theorem countNone_map_some_append (evs : List CodexEvent) :
    (evs.map some ++ [none]).countP Option.isNone = 1 := by
  induction evs with
  | nil => rfl
  | cons e tl ih => simpa [List.countP_cons] using ih

/-- Closing an already-closed app-server session is a no-op, so is
every further iterate. -/
theorem appSession_closeIter_closed (s : AppServerSession)
    (h : s.closed = true) : ∀ k, s.closeIter k = s := by
  intro k
  induction k with
  | zero => rfl
  | succ j ih =>
    have hc : s.close = s := by simp [AppServerSession.close, h]
    simp [AppServerSession.closeIter, hc, ih]

/-- Closing an already-closed CLI run is a no-op, so is every further
iterate. -/
theorem codexRun_closeIter_closed (r : CodexRun)
    (h : r.closed = true) : ∀ k, r.closeIter k = r := by
  intro k
  induction k with
  | zero => rfl
  | succ j ih =>
    have hc : r.close = r := by simp [CodexRun.close, h]
    simp [CodexRun.closeIter, hc, ih]

/-- C9: idempotent close. For any agent session (app-server session
or CLI run) holding the events pushed before close and any number
`k ≥ 1` of `close()` calls, no call raises (the model is total),
exactly one terminating sentinel ends up on the event queue, and a
consumer iterating `events()` terminates cleanly after receiving
exactly the events pushed before close. -/
theorem close_idempotent_single_sentinel (k : Nat) (evs : List CodexEvent)
    (s : AppServerSession) (r : CodexRun) (hk : 1 ≤ k)
    (hs : s.closed = false) (hsq : s.queue = evs.map some)
    (hr : r.closed = false) (hrq : r.queue = evs.map some) :
    ((s.closeIter k).queue.countP Option.isNone = 1 ∧
      consumeQueue (s.closeIter k).queue = some evs) ∧
    ((r.closeIter k).queue.countP Option.isNone = 1 ∧
      consumeQueue (r.closeIter k).queue = some evs) := by
  obtain ⟨j, rfl⟩ : ∃ j, k = j + 1 := ⟨k - 1, by omega⟩
  have hs1 : s.close =
      { s with closed := true, rpc := s.rpc.close, queue := s.queue ++ [none] } := by
    simp [AppServerSession.close, hs]
  have hr1 : r.close = { r with closed := true, queue := r.queue ++ [none] } := by
    simp [CodexRun.close, hr]
  have hsIter : s.closeIter (j + 1) = s.close := by
    show (s.close).closeIter j = s.close
    exact appSession_closeIter_closed s.close (by rw [hs1]) j
  have hrIter : r.closeIter (j + 1) = r.close := by
    show (r.close).closeIter j = r.close
    exact codexRun_closeIter_closed r.close (by rw [hr1]) j
  rw [hsIter, hrIter, hs1, hr1]
  simp only [hsq, hrq]
  exact ⟨⟨countNone_map_some_append evs, consumeQueue_map_some_append evs⟩,
    ⟨countNone_map_some_append evs, consumeQueue_map_some_append evs⟩⟩

/-- Witness for C9 at a concrete session, run and `k = 3`. -/
theorem close_idempotent_single_sentinel_witness :
    ((AppServerSession.closeIter
        { closed := false, queue := [some CodexEvent.TurnStarted], rpc := {},
          thread_id := none, turn_id := none } 3).queue.countP Option.isNone = 1) ∧
    (consumeQueue (CodexRun.closeIter
        { closed := false, queue := [some CodexEvent.TurnStarted],
          thread_id := none } 3).queue = some [CodexEvent.TurnStarted]) := by
  have h := close_idempotent_single_sentinel 3 [CodexEvent.TurnStarted]
    { closed := false, queue := [some CodexEvent.TurnStarted], rpc := {},
      thread_id := none, turn_id := none }
    { closed := false, queue := [some CodexEvent.TurnStarted], thread_id := none }
    (by decide) rfl rfl rfl rfl
  exact ⟨h.1.1, h.2.2⟩

/-- Method `request()` keeps the connection open and adds one pending future
whose id sits in the pending map. -/
theorem issueRequests_pending_inv (n : Nat) :
    ∀ c : JsonRpcConnection, c.closed = false →
    (∀ p ∈ c.futures, p.2 = FutureState.pending ∧ p.1 ∈ c.pendingIds) →
    (issueRequests c n).closed = false ∧
    (issueRequests c n).futures.length = c.futures.length + n ∧
    (∀ p ∈ (issueRequests c n).futures,
      p.2 = FutureState.pending ∧ p.1 ∈ (issueRequests c n).pendingIds) := by
  induction n with
  | zero => intro c hc hinv; exact ⟨hc, by simp [issueRequests], by
      simpa [issueRequests] using hinv⟩
  | succ m ih =>
    intro c hc hinv
    have hreq : (c.request "m" (JVal.obj [])).1 =
        { c with
          nextId := c.nextId + 1
          futures := c.futures ++ [(RequestId.i c.nextId, FutureState.pending)]
          pendingIds := c.pendingIds ++ [RequestId.i c.nextId]
          sentObjs := c.sentObjs ++ [[("id", JVal.int c.nextId),
            ("method", JVal.str "m"), ("params", JVal.obj [])]] } := by
      simp [JsonRpcConnection.request, JsonRpcConnection.write_obj, hc]
    have hstep : issueRequests c (m + 1) =
        issueRequests (c.request "m" (JVal.obj [])).1 m := rfl
    rw [hstep, hreq]
    have := ih
      { c with
        nextId := c.nextId + 1
        futures := c.futures ++ [(RequestId.i c.nextId, FutureState.pending)]
        pendingIds := c.pendingIds ++ [RequestId.i c.nextId]
        sentObjs := c.sentObjs ++ [[("id", JVal.int c.nextId),
          ("method", JVal.str "m"), ("params", JVal.obj [])]] }
      hc ?_
    · refine ⟨this.1, by have h := this.2.1; simp at h ⊢; omega, this.2.2⟩
    · intro p hp
      simp only [List.mem_append, List.mem_singleton] at hp
      rcases hp with hp | hp
      · obtain ⟨h1, h2⟩ := hinv p hp
        exact ⟨h1, by simp [h2]⟩
      · subst hp
        exact ⟨rfl, by simp⟩

/-- Method `close()` empties the pending map and rejects every future that
was pending in it. -/
theorem close_all_rejected (c : JsonRpcConnection)
    (hinv : ∀ p ∈ c.futures, p.2 = FutureState.pending ∧ p.1 ∈ c.pendingIds) :
    c.close.pendingIds = [] ∧
    c.close.futures.length = c.futures.length ∧
    ∀ p ∈ c.close.futures,
      p.2 = FutureState.rejected (JVal.str "connection closed") := by
  refine ⟨rfl, by simp [JsonRpcConnection.close], ?_⟩
  intro p hp
  simp only [JsonRpcConnection.close, List.mem_map] at hp
  obtain ⟨q, hq, hfq⟩ := hp
  obtain ⟨h1, h2⟩ := hinv q hq
  have hcont : c.pendingIds.contains q.1 = true := by
    simpa [List.contains] using List.elem_eq_true_of_mem h2
  rw [hcont, h1] at hfq
  simp only [FutureState.done, Bool.not_false, Bool.and_self, if_true] at hfq
  rw [← hfq]

/-- C2: closing the connection rejects every still-pending request
future with a "connection closed" error. After `N` requests issued
via `request()` with no responses arrived, `close()` leaves the
pending map empty and all `N` futures completed with the rejection,
so no caller awaiting a response hangs forever. -/
theorem close_rejects_pending_futures (n : Nat) :
    (issueRequests {} n).close.pendingIds = [] ∧
    (issueRequests {} n).close.futures.length = n ∧
    ∀ p ∈ (issueRequests {} n).close.futures,
      p.2 = FutureState.rejected (JVal.str "connection closed") := by
  have hinv := issueRequests_pending_inv n {} rfl (by intro p hp; simp at hp)
  have hclose := close_all_rejected (issueRequests {} n) hinv.2.2
  exact ⟨hclose.1, by rw [hclose.2.1, hinv.2.1]; simp, hclose.2.2⟩

/-- Witness for C2 at `N = 2`: both futures end rejected and the
pending map is empty. -/
theorem close_rejects_pending_futures_witness :
    (issueRequests {} 2).close.pendingIds = [] ∧
    (issueRequests {} 2).close.futures.length = 2 :=
  ⟨(close_rejects_pending_futures 2).1, (close_rejects_pending_futures 2).2.1⟩

/-- C3: stale approval rejection. When an approval decision callback
is addressed to run id `B` and the recorded active run is absent or
has a different run id, the handler emits the stale signal, sends no
decision to the agent, and leaves the recorded active-run row (and
its pending approval) unchanged; moreover (second conjunct) a
decision is ever sent only when the run id of the callback equals the
recorded active run id. -/
theorem stale_approval_rejected (data : String) (ctx : CbCtx)
    (action runId : String)
    (hsplit : splitColon1 data = some (action, runId))
    (haction : action = "approve_once" ∨ action = "approve_similar" ∨
      action = "reject")
    (hstale : ctx.activeRow = none ∨
      ∃ row, ctx.activeRow = some row ∧ row.run_id ≠ runId) :
    on_approval_callback data ctx =
      .ok (ctx.activeRow, [CbEffect.message "Stale approval; no active run."]) ∧
    ∀ (d : String) (c : CbCtx) (res : Option ActiveRunRow × List CbEffect),
      on_approval_callback d c = .ok res →
      ∀ rid kind dec amd, CbEffect.decision rid kind dec amd ∈ res.2 →
        ∃ a b row, splitColon1 d = some (a, b) ∧ c.activeRow = some row ∧
          row.run_id = b := by
  constructor
  · have hbool : (action ≠ "approve_once" && action ≠ "approve_similar" &&
        action ≠ "reject") = false := by
      rcases haction with h | h | h <;> subst h <;> decide
    unfold on_approval_callback
    rw [hsplit]
    rcases hstale with hrow | ⟨row, hrow, hne⟩
    · simp [hrow, hbool]
      intro h1 h2
      rcases haction with h | h | h <;> simp_all
    · simp [hrow, hbool, hne]
      intro h1 h2
      rcases haction with h | h | h <;> simp_all
  · intro d c res h rid kind dec amd hmem
    unfold on_approval_callback at h
    split at h
    · rw [Except.ok.injEq] at h
      subst h
      simp at hmem
    · rename_i act runb heq
      split at h
      · rw [Except.ok.injEq] at h
        subst h
        simp at hmem
      · split at h
        · rw [Except.ok.injEq] at h
          subst h
          simp at hmem
        · rename_i active hrow
          split at h
          · rw [Except.ok.injEq] at h
            subst h
            simp at hmem
          · rename_i hne
            push_neg at hne
            exact ⟨act, runb, active, heq, hrow, hne⟩

/-- Witness for C3: a concrete reject callback addressed to run `B`
while run `A` is recorded is answered with the stale signal and no
state change. -/
theorem stale_approval_rejected_witness :
    on_approval_callback "reject:B"
        { activeRow := some ⟨"A", "waiting_approval", some "x"⟩
          hasRunHandle := true
          sendOk := true
          sendErr := "" } =
      .ok (some ⟨"A", "waiting_approval", some "x"⟩,
        [CbEffect.message "Stale approval; no active run."]) :=
  (stale_approval_rejected "reject:B"
    { activeRow := some ⟨"A", "waiting_approval", some "x"⟩
      hasRunHandle := true
      sendOk := true
      sendErr := "" }
    "reject" "B" rfl (Or.inr (Or.inr rfl))
    (Or.inr ⟨⟨"A", "waiting_approval", some "x"⟩, rfl, by decide⟩)).1

/-- A newline-free byte run has no line break. -/
theorem breakNl_of_not_mem {bs : List Nat} (h : 10 ∉ bs) :
    breakNl bs = none := by
  induction bs with
  | nil => rfl
  | cons b tl ih =>
    simp only [List.mem_cons, not_or] at h
    have hb : ¬ b = 10 := fun hh => h.1 hh.symm
    simp [breakNl, hb, ih h.2]

/-- The first line break after a newline-free run splits exactly
there. -/
theorem breakNl_append_cons {cur rest : List Nat} (h : 10 ∉ cur) :
    breakNl (cur ++ 10 :: rest) = some (cur, rest) := by
  induction cur with
  | nil => simp [breakNl]
  | cons b tl ih =>
    simp only [List.mem_cons, not_or] at h
    have hb : ¬ b = 10 := fun hh => h.1 hh.symm
    simp [breakNl, hb, ih h.2]

/-- Running `feedLoop` on a buffer with no newline returns it unchanged. -/
theorem feedLoop_none {bs : List Nat} (h : breakNl bs = none) :
    feedLoop bs = ([], bs) := by
  unfold feedLoop
  split
  · rfl
  · rename_i l r h2
    rw [h] at h2
    simp at h2

/-- Unfolding `feedLoop` one line at a time. -/
theorem feedLoop_some {bs l r : List Nat} (h : breakNl bs = some (l, r)) :
    feedLoop bs =
      (if lineText l ≠ "" then lineText l :: (feedLoop r).1 else (feedLoop r).1,
        (feedLoop r).2) := by
  conv_lhs => unfold feedLoop
  split
  · rename_i h2
    rw [h] at h2
    simp at h2
  · rename_i l2 r2 h2
    rw [h] at h2
    obtain ⟨h3, h4⟩ := Prod.mk.injEq .. ▸ Option.some.inj h2
    subst h3
    subst h4
    rcases hfr : feedLoop r with ⟨ls, buf⟩
    simp [hfr]

/-- Running `feedLoop` on a newline-free buffer followed by fresh bytes is the
structural scan. -/
theorem feedLoop_eq_scanLines (bs : List Nat) : ∀ cur, 10 ∉ cur →
    feedLoop (cur ++ bs) = scanLines cur bs := by
  induction bs with
  | nil =>
    intro cur h
    rw [List.append_nil, feedLoop_none (breakNl_of_not_mem h)]
    rfl
  | cons b tl ih =>
    intro cur h
    by_cases hb : b = 10
    · subst hb
      rw [feedLoop_some (breakNl_append_cons h)]
      have hrec := ih [] (by simp)
      simp only [List.nil_append] at hrec
      simp [scanLines, hrec]
    · have : cur ++ b :: tl = (cur ++ [b]) ++ tl := by simp
      rw [this]
      have h2 : (10 : Nat) ∉ cur ++ [b] := by
        simp only [List.mem_append, List.mem_singleton, not_or]
        exact ⟨h, fun hh => hb hh.symm⟩
      rw [ih (cur ++ [b]) h2]
      simp [scanLines, hb]

/-- Scanning an appended input continues from the leftover buffer. -/
theorem scanLines_append (a : List Nat) : ∀ (cur b : List Nat),
    scanLines cur (a ++ b) =
      ((scanLines cur a).1 ++ (scanLines (scanLines cur a).2 b).1,
        (scanLines (scanLines cur a).2 b).2) := by
  induction a with
  | nil => intro cur b; simp [scanLines]
  | cons x tl ih =>
    intro cur b
    by_cases hx : x = 10
    · subst hx
      simp only [List.cons_append, scanLines, ite_true, List.append_eq]
      rw [ih [] b]
      rcases h1 : scanLines [] tl with ⟨ls1, buf1⟩
      simp only [h1]
      split_ifs <;> simp
    · simp only [List.cons_append, scanLines, if_neg hx]
      exact ih (cur ++ [x]) b

/-- The leftover buffer of a scan never contains a newline. -/
theorem scanLines_buf_no_nl (bs : List Nat) : ∀ cur, 10 ∉ cur →
    10 ∉ (scanLines cur bs).2 := by
  induction bs with
  | nil => intro cur h; simpa [scanLines] using h
  | cons b tl ih =>
    intro cur h
    by_cases hb : b = 10
    · subst hb
      simp only [scanLines, ite_true]
      have h2 := ih [] (by simp)
      rcases h1 : scanLines [] tl with ⟨ls, buf⟩
      rw [h1] at h2
      simpa using h2
    · simp only [scanLines, if_neg hb]
      refine ih (cur ++ [b]) ?_
      simp only [List.mem_append, List.mem_singleton, not_or]
      exact ⟨h, fun hh => hb hh.symm⟩

/-- Feeding chunks one by one equals scanning their concatenation. -/
theorem feedMany_eq_scanLines (chunks : List (List Nat)) : ∀ buf, 10 ∉ buf →
    feedMany buf chunks = scanLines buf chunks.flatten := by
  induction chunks with
  | nil => intro buf h; simp [feedMany, List.flatten, scanLines]
  | cons ch chs ih =>
    intro buf h
    have hfeed : jsonLineBufferFeed buf ch = scanLines buf ch :=
      feedLoop_eq_scanLines ch buf h
    rcases h1 : scanLines buf ch with ⟨ls1, buf1⟩
    have hb1 : 10 ∉ buf1 := by
      have h2 := scanLines_buf_no_nl ch buf h
      rw [h1] at h2
      exact h2
    have hrest := ih buf1 hb1
    show (let (ls, buf2) := jsonLineBufferFeed buf ch
      let (ls2, buf3) := feedMany buf2 chs
      (ls ++ ls2, buf3)) = scanLines buf (ch :: chs).flatten
    rw [hfeed, h1]
    have hjoin : (ch :: chs).flatten = ch ++ chs.flatten := by simp [List.flatten]
    rw [hjoin, scanLines_append ch buf chs.flatten, h1]
    simp only
    rcases h2 : feedMany buf1 chs with ⟨ls2, buf3⟩
    rw [h2] at hrest
    rw [← hrest]

/-- The newline segmentation is never empty. -/
theorem splitOnNl_ne_nil (bs : List Nat) : splitOnNl bs ≠ [] := by
  cases bs with
  | nil => simp [splitOnNl]
  | cons b tl =>
    simp only [splitOnNl]
    split_ifs
    · simp
    · cases h : splitOnNl tl <;> simp

/-- The scan produces exactly the non-empty stripped texts of the
segments preceding each newline, and buffers the trailing segment. -/
theorem scanLines_splitOnNl (bs : List Nat) : ∀ cur seg rest,
    splitOnNl bs = seg :: rest →
    scanLines cur bs =
      (segLines ((cur ++ seg) :: rest), segLast ((cur ++ seg) :: rest)) := by
  induction bs with
  | nil =>
    intro cur seg rest h
    simp only [splitOnNl] at h
    obtain ⟨h1, h2⟩ := List.cons.injEq .. ▸ h
    subst h1
    subst h2
    simp [scanLines, segLines, segLast]
  | cons b tl ih =>
    intro cur seg rest h
    by_cases hb : b = 10
    · subst hb
      simp only [splitOnNl, ite_true] at h
      obtain ⟨h1, h2⟩ := List.cons.injEq .. ▸ h
      subst h1
      subst h2
      obtain ⟨seg1, rest1, hsp⟩ : ∃ s r, splitOnNl tl = s :: r := by
        cases hx : splitOnNl tl with
        | nil => exact absurd hx (splitOnNl_ne_nil tl)
        | cons s r => exact ⟨s, r, rfl⟩
      rw [hsp]
      have hrec := ih [] seg1 rest1 hsp
      simp only [List.nil_append] at hrec
      simp only [scanLines, ite_true]
      rw [hrec]
      simp only [List.append_nil, segLines, segLast]
      split_ifs <;> simp
    · simp only [splitOnNl, if_neg hb] at h
      obtain ⟨seg1, rest1, hsp⟩ : ∃ s r, splitOnNl tl = s :: r := by
        cases hx : splitOnNl tl with
        | nil => exact absurd hx (splitOnNl_ne_nil tl)
        | cons s r => exact ⟨s, r, rfl⟩
      rw [hsp] at h
      obtain ⟨h1, h2⟩ := List.cons.injEq .. ▸ h
      subst h1
      subst h2
      simp only [scanLines, if_neg hb]
      have hrec := ih (cur ++ [b]) seg1 rest1 hsp
      rw [hrec]
      simp [List.append_assoc]

/-- C10: chunk-boundary invariance of line framing. Feeding any
chunking of a byte sequence to a fresh `JsonLineBuffer` yields the
same lines as feeding the whole sequence at once, namely the
non-empty whitespace-stripped texts of the segments preceding each
newline, in order; the bytes after the last newline remain buffered
and produce no line. -/
theorem line_framing_chunk_invariant (chunks : List (List Nat)) :
    feedMany [] chunks = feedLoop chunks.flatten ∧
    (feedLoop chunks.flatten).1 = segLines (splitOnNl chunks.flatten) ∧
    (feedLoop chunks.flatten).2 = segLast (splitOnNl chunks.flatten) := by
  have h1 : feedMany [] chunks = scanLines [] chunks.flatten :=
    feedMany_eq_scanLines chunks [] (by simp)
  have h2 : feedLoop chunks.flatten = scanLines [] chunks.flatten := by
    have h := feedLoop_eq_scanLines chunks.flatten [] (by simp)
    simpa using h
  obtain ⟨seg, rest, hsp⟩ : ∃ s r, splitOnNl chunks.flatten = s :: r := by
    cases hx : splitOnNl chunks.flatten with
    | nil => exact absurd hx (splitOnNl_ne_nil chunks.flatten)
    | cons s r => exact ⟨s, r, rfl⟩
  have h3 := scanLines_splitOnNl chunks.flatten [] seg rest hsp
  simp only [List.nil_append] at h3
  rw [hsp]
  exact ⟨h1.trans h2.symm, by rw [h2, h3], by rw [h2, h3]⟩

/-- Witness for C10: a concrete byte sequence split into three chunks
(with a line spanning a chunk boundary) produces the same two lines
as the unsplit sequence, with the tail buffered. -/
theorem line_framing_chunk_invariant_witness :
    feedMany [] [[104, 105, 10, 32, 119], [111, 10], [120, 121]] =
      (["hi", "wo"], [120, 121]) ∧
    feedLoop [104, 105, 10, 32, 119, 111, 10, 120, 121] =
      (["hi", "wo"], [120, 121]) := by
  have h := line_framing_chunk_invariant [[104, 105, 10, 32, 119], [111, 10], [120, 121]]
  constructor
  · rw [h.1, Prod.ext_iff]
    exact ⟨by rw [h.2.1]; rfl, by rw [h.2.2]; rfl⟩
  · show feedLoop ([[104, 105, 10, 32, 119], [111, 10], [120, 121]].flatten) = _
    rw [Prod.ext_iff]
    exact ⟨by rw [h.2.1]; rfl, by rw [h.2.2]; rfl⟩

/-- C6 (counterexample): when the `info` object carries both
`total_token_usage` and `last_token_usage` but `last_token_usage` is
the empty object (falsy in Python), the parsed `TokenCount` takes its
fields from the cumulative `total_token_usage` — here
`total_tokens = 5` comes from the cumulative object while a lookup in
the (present) `last_token_usage` yields nothing — refuting the claim
that the fields are taken from `last_token_usage` whenever both are
present. -/
theorem token_count_prefers_cumulative_when_last_empty :
    parse_event_obj [("type", JVal.str "token_count"),
        ("info", JVal.obj [("model_context_window", JVal.int 1000),
          ("total_token_usage", JVal.obj [("total_tokens", JVal.int 5)]),
          ("last_token_usage", JVal.obj [])])] =
      .ok [CodexEvent.TokenCount (some 1000) (some 5) none none none none
        none none none none none none
        [("type", JVal.str "token_count"),
          ("info", JVal.obj [("model_context_window", JVal.int 1000),
            ("total_token_usage", JVal.obj [("total_tokens", JVal.int 5)]),
            ("last_token_usage", JVal.obj [])])]] ∧
    (JVal.get ([] : JObj) "total_tokens").asInt? = none := by
  constructor
  · unfold parse_event_obj
    rfl
  · rfl

/-- C6 (amended): when a `token_count` wire object carries an `info`
object with both `total_token_usage` and `last_token_usage` and
`last_token_usage` is a non-empty object, the parsed `TokenCount`
token fields are taken from `last_token_usage` (the cumulative totals
are unused); and `update_token_telemetry` stores
`max(model_context_window - total_tokens, 0)` as context remaining
whenever both are integers — 750 for window 1000 and total 250, and 0
(never negative) when the total exceeds the window. -/
theorem token_telemetry_last_usage_and_context_remaining :
    (∀ (w : Int) (lastKvs totalKvs : JObj), lastKvs ≠ [] →
      parse_event_obj [("type", JVal.str "token_count"),
          ("info", JVal.obj [("model_context_window", JVal.int w),
            ("total_token_usage", JVal.obj totalKvs),
            ("last_token_usage", JVal.obj lastKvs)])] =
        .ok [CodexEvent.TokenCount (some w)
          ((JVal.get lastKvs "total_tokens").asInt?)
          ((JVal.get lastKvs "input_tokens").asInt?)
          ((JVal.get lastKvs "output_tokens").asInt?)
          ((JVal.get lastKvs "cached_input_tokens").asInt?)
          ((JVal.get lastKvs "reasoning_output_tokens").asInt?)
          none none none none none none
          [("type", JVal.str "token_count"),
            ("info", JVal.obj [("model_context_window", JVal.int w),
              ("total_token_usage", JVal.obj totalKvs),
              ("last_token_usage", JVal.obj lastKvs)])]]) ∧
    (∀ (t w : Int) (it ot cit : Option Int) (pU : Option Rat)
        (pW pR : Option Int) (sU : Option Rat) (sW sR : Option Int),
      (update_token_telemetry (some t) (some w) it ot cit
          pU pW pR sU sW sR).last_context_remaining = some (max (w - t) 0)) ∧
    (update_token_telemetry (some 250) (some 1000) none none none
        none none none none none none).last_context_remaining = some 750 ∧
    (update_token_telemetry (some 1700) (some 1000) none none none
        none none none none none none).last_context_remaining = some 0 := by
  refine ⟨?_, ?_, rfl, rfl⟩
  · intro w lastKvs totalKvs hne
    unfold parse_event_obj
    simp only [JVal.get, List.find?]
    norm_num
    simp only [parseRest, parseTokenCount, JVal.get, List.find?, JVal.orElse,
      JVal.truthy, JVal.eqStr, isWrapperType]
    norm_num
    simp [hne]
    rfl
  · intro t w it ot cit pU pW pR sU sW sR
    rfl

/-- Witness for the amended C6: with both usage objects present and a
non-empty `last_token_usage`, the parsed totals come from the latter,
and the context-remaining computation gives 750 and clamps at 0. -/
theorem token_telemetry_last_usage_witness :
    parse_event_obj [("type", JVal.str "token_count"),
        ("info", JVal.obj [("model_context_window", JVal.int 1000),
          ("total_token_usage", JVal.obj [("total_tokens", JVal.int 123)]),
          ("last_token_usage", JVal.obj [("total_tokens", JVal.int 124)])])] =
      .ok [CodexEvent.TokenCount (some 1000) (some 124) none none none none
        none none none none none none
        [("type", JVal.str "token_count"),
          ("info", JVal.obj [("model_context_window", JVal.int 1000),
            ("total_token_usage", JVal.obj [("total_tokens", JVal.int 123)]),
            ("last_token_usage", JVal.obj [("total_tokens", JVal.int 124)])])]] ∧
    (update_token_telemetry (some 250) (some 1000) none none none
        none none none none none none).last_context_remaining = some 750 := by
  constructor
  · rw [token_telemetry_last_usage_and_context_remaining.1 1000
      [("total_tokens", JVal.int 124)] [("total_tokens", JVal.int 123)]
      (by simp)]
    rfl
  · exact token_telemetry_last_usage_and_context_remaining.2.2.1

end Tgcodex
